import Mathlib

/-!
# Lyric search backend: search orchestration and history reads

A shallow embedding of `server/routes/search.js`, `server/routes/history.js`
and the schema of `server/models/SearchHistory.js`.

Modelling conventions.

* JavaScript values are the inductive `JsVal`; numbers are `JsNum`, whose finite
  values are exact rationals (only comparisons, equality and the ceiling of a
  quotient of two integers are taken, so no rounding is involved for counts
  below 2^53).  The results of `parseInt` are `JsInt`: the digit string is
  rounded to the nearest double, or to an infinity.
* A request's input is what express hands to the handler: the `lyrics`
  field of `req.body` (`JsVal.undefined` when the field is missing), or the raw
  `page`/`limit` strings of `req.query` (`none` when the parameter is absent;
  repeated or nested query parameters are outside the model).
* The ML service is an oracle `String → MlReply` classifying the result of the
  single `axios.post` by the branches the handler distinguishes.
* The collection is the list of stored documents in insertion order.  What lies
  outside the repository (identifier and clock values, store failures, the
  casting of ill-typed values by the schema types) is read from `Env`.
* Handlers return the response, the collection afterwards and the trace of the
  outgoing calls they made (`Effect`).
-/

namespace LyricSearch

/-! ## JavaScript values -/

/-- JavaScript numbers: NaN, the infinities, or a finite value. -/
inductive JsNum where
  | nan
  | posInf
  | negInf
  | fin (q : ℚ)
  deriving DecidableEq

/-- JavaScript values as they come out of `JSON.parse`, plus `undefined`. -/
inductive JsVal where
  | undefined
  | null
  | bool (b : Bool)
  | num (n : JsNum)
  | str (s : String)
  | array (items : List JsVal)
  | object (fields : List (String × JsVal))

/-- Truthiness (`ToBoolean`). -/
def JsVal.truthy : JsVal → Bool
  | .undefined => false
  | .null => false
  | .bool b => b
  | .num .nan => false
  | .num (.fin q) => decide (q ≠ 0)
  | .num _ => true
  | .str s => decide (s.length ≠ 0)
  | .array _ => true
  | .object _ => true

/-- Property read `v.key` for the keys used by the handlers (none of which is
an inherited property).  `none` is the `TypeError` thrown when `v` is `null` or
`undefined`. -/
def JsVal.getProp (v : JsVal) (key : String) : Option JsVal :=
  match v with
  | .undefined => none
  | .null => none
  | .object fields => some ((fields.lookup key).getD .undefined)
  | _ => some .undefined

/-- White space and line terminators, the characters removed by
`String.prototype.trim` and skipped by `parseInt`. -/
def isJsWhitespace (c : Char) : Bool :=
  let n := c.toNat
  n = 0x09 || n = 0x0A || n = 0x0B || n = 0x0C || n = 0x0D || n = 0x20 || n = 0xA0 ||
  n = 0x1680 || (0x2000 ≤ n && n ≤ 0x200A) || n = 0x2028 || n = 0x2029 || n = 0x202F ||
  n = 0x205F || n = 0x3000 || n = 0xFEFF

/-- The method `String.prototype.trim`. -/
def jsTrim (s : String) : String :=
  ⟨(s.data.dropWhile isJsWhitespace).rdropWhile isJsWhitespace⟩

/-- Value of `c` as a digit of the given radix (10 or 16), if it is one. -/
def digitValue (radix : Nat) (c : Char) : Option Nat :=
  let n := c.toNat
  let v : Option Nat :=
    if 48 ≤ n ∧ n ≤ 57 then some (n - 48)
    else if 97 ≤ n ∧ n ≤ 122 then some (n - 87)
    else if 65 ≤ n ∧ n ≤ 90 then some (n - 55)
    else none
  v.bind fun d => if d < radix then some d else none

/-- JavaScript numbers whose value is an integer: what `parseInt` returns and
what the history handler computes with. -/
inductive JsInt where
  | nan
  | posInf
  | negInf
  | int (n : Int)
  deriving DecidableEq

/-- Number of binary digits of `n`; `fuel` bounds the recursion and `n` itself
is enough. -/
def bitLength : Nat → Nat → Nat
  | 0, _ => 0
  | fuel + 1, n => if n = 0 then 0 else bitLength fuel (n / 2) + 1

/-- The double nearest to a natural number, ties going to the even
significand; `none` when the number rounds to Infinity.  Numbers below 2^53 are
doubles already; above, the 53 leading bits `q` are kept and the `e` bits `r`
after them rounded, and a result of more than 1024 bits is Infinity. -/
def roundToDouble (n : Nat) : Option Nat :=
  if n < 2 ^ 53 then some n
  else
    let e := bitLength n n - 53
    let q := n >>> e
    let r := n - (q <<< e)
    let half := 1 <<< (e - 1)
    let q1 := if half < r ∨ (r = half ∧ q % 2 = 1) then q + 1 else q
    if bitLength (q1 <<< e) (q1 <<< e) ≤ 1024 then some (q1 <<< e) else none

/-- The global `parseInt(string)` called without a radix.  Leading white space
is skipped, a sign and a `0x`/`0X` prefix are read, and the longest run of
digits is converted to the nearest double; anything after it is ignored, and
without a digit the result is NaN. -/
def parseInt (s : String) : JsInt :=
  let s1 := s.data.dropWhile isJsWhitespace
  let (sign, s2) : Int × List Char :=
    match s1 with
    | '-' :: r => (-1, r)
    | '+' :: r => (1, r)
    | _ => (1, s1)
  let (radix, s3) : Nat × List Char :=
    match s2 with
    | '0' :: 'x' :: r => (16, r)
    | '0' :: 'X' :: r => (16, r)
    | _ => (10, s2)
  let z := s3.takeWhile fun c => (digitValue radix c).isSome
  if z.isEmpty then .nan
  else
    match roundToDouble (z.foldl (fun acc c => acc * radix + (digitValue radix c).getD 0) 0) with
    | some v => .int (sign * (v : Int))
    | none => if sign = 1 then .posInf else .negInf

/-- The expression `n || d` for a number `n`: `d` when `n` is NaN or zero. -/
def orDefault (n : JsInt) (d : Int) : JsInt :=
  match n with
  | .nan => .int d
  | .int k => if k = 0 then .int d else .int k
  | n => n

/-- The call `parseInt(req.query.x)`: an absent parameter is `undefined`, which
`parseInt` first converts to the string "undefined". -/
def parseIntParam (v : Option String) : JsInt :=
  parseInt (v.getD "undefined")

/-- The comparison `a < b`; false when either side is NaN. -/
def JsInt.lt : JsInt → JsInt → Bool
  | .int a, .int b => decide (a < b)
  | .negInf, .int _ => true
  | .negInf, .posInf => true
  | .int _, .posInf => true
  | _, _ => false

/-- The difference `a - b`.  On finite operands it is taken exactly: the double
result differs only above 2^53, see `getHistory`. -/
def JsInt.sub : JsInt → JsInt → JsInt
  | .int a, .int b => .int (a - b)
  | .nan, _ => .nan
  | _, .nan => .nan
  | .posInf, .posInf => .nan
  | .negInf, .negInf => .nan
  | .posInf, _ => .posInf
  | .negInf, _ => .negInf
  | .int _, .posInf => .negInf
  | .int _, .negInf => .posInf

/-- The product of an infinity (`neg` for the negative one) and `b`. -/
def JsInt.mulInf (neg : Bool) : JsInt → JsInt
  | .nan => .nan
  | .posInf => if neg then .negInf else .posInf
  | .negInf => if neg then .posInf else .negInf
  | .int b =>
    if b = 0 then .nan
    else if decide (0 < b) = !neg then .posInf else .negInf

/-- The product `a * b`, exact on finite operands like `JsInt.sub`. -/
def JsInt.mul : JsInt → JsInt → JsInt
  | .int a, .int b => .int (a * b)
  | .nan, _ => .nan
  | .posInf, b => JsInt.mulInf false b
  | .negInf, b => JsInt.mulInf true b
  | .int _, .nan => .nan
  | .int a, .posInf => JsInt.mulInf false (.int a)
  | .int a, .negInf => JsInt.mulInf true (.int a)

/-- The function `Math.ceil` applied to the quotient `total / limit` of a count
and a non-zero integer. -/
def ceilDiv (total : Nat) (limit : Int) : Int :=
  ⌈(total : ℚ) / (limit : ℚ)⌉

/-- The expression `Math.ceil(total / limit)`: division by zero gives Infinity
(NaN for `0 / 0`), division by an infinity gives zero. -/
def pagesOf (total : Nat) (limit : JsInt) : JsInt :=
  match limit with
  | .int l => if l = 0 then (if total = 0 then .nan else .posInf) else .int (ceilDiv total l)
  | .nan => .nan
  | _ => .int 0

/-! ## The collection -/

abbrev ObjectId := Nat

/-- A stored document of the `SearchHistory` model. -/
structure SearchHistory where
  _id : ObjectId
  lyrics : String
  song : String
  artist : String
  confidence : JsNum
  createdAt : Nat
  updatedAt : Nat
  deriving DecidableEq

/-- The collection, in insertion order. -/
abbrev Collection := List SearchHistory

/-- The order of `sort({ createdAt: -1 })`: later documents first. -/
def newerFirst (a b : SearchHistory) : Prop := b.createdAt ≤ a.createdAt

instance : DecidableRel newerFirst := fun a b => inferInstanceAs (Decidable (b.createdAt ≤ a.createdAt))

instance : IsTotal SearchHistory newerFirst := ⟨fun a b => Nat.le_total b.createdAt a.createdAt⟩

instance : IsTrans SearchHistory newerFirst := ⟨fun _ _ _ hab hbc => Nat.le_trans hbc hab⟩

/-- The cursor `find().sort({ createdAt: -1 })`: all documents, newest first,
documents with equal `createdAt` in insertion order. -/
def findSorted (db : Collection) : List SearchHistory :=
  db.insertionSort newerFirst

/-- The cursor method `skip(n)`; an infinite `n` skips every document.  The
handler only calls it with `n >= 0`. -/
def skipDocs (n : JsInt) (docs : List SearchHistory) : List SearchHistory :=
  match n with
  | .int k => docs.drop k.toNat
  | .posInf => []
  | _ => docs

/-- The cursor method `limit(n)`.  The handler only calls it with `1 <= n <= 100`. -/
def limitDocs (n : JsInt) (docs : List SearchHistory) : List SearchHistory :=
  match n with
  | .int k => docs.take k.toNat
  | _ => docs

/-- The query `find().sort(..).skip(skip).limit(limit)`. -/
def findPage (db : Collection) (skip limit : JsInt) : List SearchHistory :=
  limitDocs limit (skipDocs skip (findSorted db))

/-! ## Environment, effects, responses -/

/-- Result of casting a value to a schema type: a cast error, no value
(`null`/`undefined`), or the cast value. -/
inductive Cast (α : Type) where
  | castError
  | absent
  | value (a : α)
  deriving DecidableEq

/-- What a request reads from outside the repository. -/
structure Env where
  /-- Whether `countDocuments()` rejects (the store is unreachable, say). -/
  countFails : Bool
  /-- Whether the `find()` query rejects (the store is unreachable, or refuses
  the `skip` it is given). -/
  findFails : Bool
  /-- Whether the write of `save()` rejects after validation passed. -/
  saveFails : Bool
  /-- The `_id` generated for a new document. -/
  newId : ObjectId
  /-- The value of `Date.now()`. -/
  now : Nat
  /-- Casting by the `String` schema type of a value that is neither a string
  nor `null`/`undefined`. -/
  castOtherToString : JsVal → Cast String
  /-- Casting by the `Number` schema type of a value that is neither a number
  nor `null`/`undefined`. -/
  castOtherToNumber : JsVal → Cast JsNum

/-- The result of `axios.post` to the ML service, by the cases the handler
distinguishes. -/
inductive MlReply where
  /-- The promise resolved; `data` is `mlResponse.data`. -/
  | resolved (data : JsVal)
  /-- Rejected with `error.response` set: the service answered with an error status. -/
  | errorResponse (status : Nat) (data : JsVal)
  /-- Rejected with only `error.request` set: no response was received. -/
  | noResponse
  /-- Rejected with neither: the request could not be set up. -/
  | setupError

/-- The new document as constructed by `new SearchHistory(..)`, before validation. -/
structure Draft where
  _id : ObjectId
  lyrics : Cast String
  song : Cast String
  artist : Cast String
  confidence : Cast JsNum
  createdAt : Nat

/-- Outgoing calls made by a handler, in order. -/
inductive Effect where
  | mlPredict (lyrics : String)
  | save (doc : Draft)
  | countDocuments
  | find (skip limit : JsInt)

/-- The `pagination` object handed to `res.json` (which writes an infinite
number as `null`). -/
structure Pagination where
  page : JsInt
  limit : JsInt
  total : Nat
  pages : JsInt
  deriving DecidableEq

/-- Why the outer `catch` was reached. -/
inductive Failure where
  | typeError
  | validationError
  | storeError
  deriving DecidableEq

/-- Response bodies. -/
inductive Body where
  /-- The body `{ error }`. -/
  | error (error : JsVal)
  /-- The body `{ error: 'Internal server error', message }` of the outer `catch`. -/
  | internalError (cause : Failure)
  /-- The body `{ success: true, data: { song, artist, confidence, id } }`. -/
  | searchResult (song artist confidence : JsVal) (id : ObjectId)
  /-- The body `{ success: true, data, pagination }`. -/
  | history (data : List SearchHistory) (pagination : Pagination)

structure Response where
  status : Nat
  body : Body

/-- What a handler call produces. -/
structure Outcome where
  response : Response
  db : Collection
  effects : List Effect

/-! ## GET /api/history -/

structure HistoryQuery where
  page : Option String
  limit : Option String

def invalidPaginationMessage : String :=
  "Invalid pagination parameters. Page must be >= 1, limit must be between 1 and 100."

/-- The handler `router.get('/history')`.  Past the guard `limit` is an
integer from 1 to 100 and `page` is at least 1, so `skip` is a non-negative
integer or Infinity.  `skip` is the exact product: the double product differs
from it only above 2^53, where both pass the end of any collection whose count
is exact. -/
def getHistory (env : Env) (query : HistoryQuery) (db : Collection) : Outcome :=
  let page := orDefault (parseIntParam query.page) 1
  let limit := orDefault (parseIntParam query.limit) 20
  let skip := (page.sub (.int 1)).mul limit
  if page.lt (.int 1) ∨ limit.lt (.int 1) ∨ (JsInt.int 100).lt limit then
    ⟨⟨400, .error (.str invalidPaginationMessage)⟩, db, []⟩
  else if env.countFails then
    ⟨⟨500, .internalError .storeError⟩, db, [.countDocuments]⟩
  else
    let total := db.length
    if env.findFails then
      ⟨⟨500, .internalError .storeError⟩, db, [.countDocuments, .find skip limit]⟩
    else
      let history := findPage db skip limit
      ⟨⟨200, .history history ⟨page, limit, total, pagesOf total limit⟩⟩, db,
        [.countDocuments, .find skip limit]⟩

/-! ## The `SearchHistory` schema and `save()` -/

/-- Casting by the schema type `String` followed by the `trim: true` setter. -/
def castTrimmedString (env : Env) : JsVal → Cast String
  | .undefined => .absent
  | .null => .absent
  | .str s => .value (jsTrim s)
  | v =>
    match env.castOtherToString v with
    | .value s => .value (jsTrim s)
    | c => c

/-- Casting by the schema type `Number`; NaN is a cast error. -/
def castNumber (env : Env) : JsVal → Cast JsNum
  | .undefined => .absent
  | .null => .absent
  | .num .nan => .castError
  | .num n => .value n
  | v =>
    match env.castOtherToNumber v with
    | .value .nan => .castError
    | c => c

/-- The comparison `0 <= n` of the `min: 0` validator. -/
def JsNum.atLeastZero : JsNum → Bool
  | .fin q => decide (0 ≤ q)
  | .posInf => true
  | _ => false

/-- The comparison `n <= 1` of the `max: 1` validator. -/
def JsNum.atMostOne : JsNum → Bool
  | .fin q => decide (q ≤ 1)
  | .negInf => true
  | _ => false

/-- The constructor call `new SearchHistory({ lyrics, song, artist, confidence })`:
the paths are cast and set; `_id` and the `createdAt` default are assigned. -/
def SearchHistory.new (env : Env) (lyrics song artist confidence : JsVal) : Draft :=
  { _id := env.newId
    lyrics := castTrimmedString env lyrics
    song := castTrimmedString env song
    artist := castTrimmedString env artist
    confidence := castNumber env confidence
    createdAt := env.now }

/-- Validation of a `required: true` path of type `String`: a string of non-zero length. -/
def requiredString : Cast String → Option String
  | .value s => if s.length ≠ 0 then some s else none
  | _ => none

/-- Validation of the `confidence` path: `required: true, min: 0, max: 1`. -/
def requiredUnitNumber : Cast JsNum → Option JsNum
  | .value n => if n.atLeastZero ∧ n.atMostOne then some n else none
  | _ => none

/-- Schema validation run by `save()`: the document to insert, or `none` when a
path failed to cast or a validator rejects. -/
def validate (env : Env) (d : Draft) : Option SearchHistory :=
  match requiredString d.lyrics, requiredString d.song, requiredString d.artist,
      requiredUnitNumber d.confidence with
  | some lyrics, some song, some artist, some confidence =>
    some { _id := d._id, lyrics := lyrics, song := song, artist := artist,
           confidence := confidence, createdAt := d.createdAt, updatedAt := env.now }
  | _, _, _, _ => none

/-- The method `save()` on a new document: validate, then insert. -/
def save (env : Env) (d : Draft) (db : Collection) : Except Failure Collection :=
  match validate env d with
  | none => .error .validationError
  | some doc => if env.saveFails then .error .storeError else .ok (db ++ [doc])

/-! ## POST /api/search -/

def lyricsRequiredMessage : String := "Lyrics input is required and must be a non-empty string"

def mlUnavailableMessage : String := "ML service is unavailable. Please ensure it is running."

/-- The handler `router.post('/search')`; `lyrics` is `req.body.lyrics`. -/
def postSearch (env : Env) (ml : String → MlReply) (lyrics : JsVal) (db : Collection) : Outcome :=
  match lyrics with
  | .str s =>
    if !lyrics.truthy || (jsTrim s).length = 0 then
      ⟨⟨400, .error (.str lyricsRequiredMessage)⟩, db, []⟩
    else
      let call := Effect.mlPredict (jsTrim s)
      match ml (jsTrim s) with
      | .errorResponse status data =>
        match data.getProp "detail" with
        | none => ⟨⟨500, .internalError .typeError⟩, db, [call]⟩
        | some detail =>
          ⟨⟨status, .error (if detail.truthy then detail else .str "ML service error")⟩, db, [call]⟩
      | .noResponse => ⟨⟨503, .error (.str mlUnavailableMessage)⟩, db, [call]⟩
      | .setupError => ⟨⟨500, .error (.str "Error calling ML service")⟩, db, [call]⟩
      | .resolved data =>
        match data.getProp "song", data.getProp "artist", data.getProp "confidence" with
        | some song, some artist, some confidence =>
          let searchRecord := SearchHistory.new env (.str (jsTrim s)) song artist confidence
          match save env searchRecord db with
          | .error cause => ⟨⟨500, .internalError cause⟩, db, [call, .save searchRecord]⟩
          | .ok db1 =>
            ⟨⟨200, .searchResult song artist confidence searchRecord._id⟩, db1,
              [call, .save searchRecord]⟩
        | _, _, _ => ⟨⟨500, .internalError .typeError⟩, db, [call]⟩
  | _ => ⟨⟨400, .error (.str lyricsRequiredMessage)⟩, db, []⟩

/-- One `POST /api/search` call: its environment, the ML oracle and the `lyrics` field. -/
structure SearchCall where
  env : Env
  ml : String → MlReply
  lyrics : JsVal

/-- The collection after a sequence of `POST /api/search` calls. -/
def runSearches (calls : List SearchCall) (db : Collection) : Collection :=
  calls.foldl (fun acc c => (postSearch c.env c.ml c.lyrics acc).db) db

/-- The `data` array of a history response (empty for any other body). -/
def Outcome.data (o : Outcome) : List SearchHistory :=
  match o.response.body with
  | .history data _ => data
  | _ => []

/-- Whether a handler call made a given kind of outgoing call. -/
def Effect.isStoreQuery : Effect → Bool
  | .countDocuments => true
  | .find _ _ => true
  | _ => false

def Effect.isSave : Effect → Bool
  | .save _ => true
  | _ => false

def Effect.isMlPredict : Effect → Bool
  | .mlPredict _ => true
  | _ => false

/-- Records the schema lets through. -/
def ValidRecord (r : SearchHistory) : Prop :=
  (r.lyrics.length ≠ 0 ∧ jsTrim r.lyrics = r.lyrics) ∧
  (r.song.length ≠ 0 ∧ jsTrim r.song = r.song) ∧
  (r.artist.length ≠ 0 ∧ jsTrim r.artist = r.artist) ∧
  ∃ q : ℚ, r.confidence = .fin q ∧ 0 ≤ q ∧ q ≤ 1

/-! ## Fixtures for the scenarios -/

/-- An environment in which the store answers every operation. -/
def Env.healthy : Env :=
  { countFails := false, findFails := false, saveFails := false, newId := 1, now := 1000,
    castOtherToString := fun _ => .castError, castOtherToNumber := fun _ => .castError }

/-- The record `r i` of Scenario D, created at time `i`. -/
def scenarioRecord (i : Nat) : SearchHistory :=
  { _id := i, lyrics := "la la", song := "Song", artist := "Artist", confidence := .fin 1,
    createdAt := i, updatedAt := i }

/-- The store of Scenario D: `r 1 .. r 25`, inserted oldest to newest. -/
def scenarioStore : Collection :=
  (List.range 25).map fun i => scenarioRecord (i + 1)

/-- The three requests `page=1`, `page=2`, `page=3` with `limit=10`. -/
def scenarioPages (p : Nat) : HistoryQuery :=
  ⟨some (if p = 1 then "1" else if p = 2 then "2" else "3"), some "10"⟩

/-- The payload of Scenario A: song "Happy" by Pharrell Williams, confidence 0.92. -/
def happyPayload : JsVal :=
  .object [("song", .str "Happy"), ("artist", .str "Pharrell Williams"),
    ("confidence", .num (.fin (23 / 25)))]

/-- The record Scenario A stores in `Env.healthy`. -/
def happyRecord : SearchHistory :=
  { _id := 1, lyrics := "feeling happy", song := "Happy", artist := "Pharrell Williams",
    confidence := .fin (23 / 25), createdAt := 1000, updatedAt := 1000 }

/-! ## Auxiliary facts -/

section Aux

theorem parseIntParam_none : parseIntParam none = .nan := by decide

theorem parseIntParam_one : parseIntParam (some "1") = .int 1 := by decide

theorem parseIntParam_twenty : parseIntParam (some "20") = .int 20 := by decide

set_option maxRecDepth 100000 in
/-- The result of `parseInt` is rounded to the nearest double: 2^53 + 1 is
read as 2^53, 2^53 + 3 as 2^53 + 4, and 2^1024 (a one and 256 zeros in
hexadecimal) as Infinity. -/
theorem parseInt_rounds :
    parseInt "9007199254740993" = .int 9007199254740992 ∧
    parseInt "9007199254740995" = .int 9007199254740996 ∧
    parseInt "-9007199254740993" = .int (-9007199254740992) ∧
    parseInt (String.mk ('0' :: 'x' :: '1' :: List.replicate 256 '0')) = .posInf := by
  refine ⟨by decide, by decide, by decide, by decide⟩

theorem orDefault_of_pos {n : JsInt} {k d : Int} (h : n = .int k) (hk : 1 ≤ k) :
    orDefault n d = .int k := by
  subst h
  have : k ≠ 0 := by omega
  simp [orDefault, this]

/-- Past the guard of the handler, `limit` is an integer from 1 to 100 and `page`
is Infinity or an integer from 1 on. -/
theorem guard_passed {page limit : JsInt}
    (h : ¬ (page.lt (.int 1) = true ∨ limit.lt (.int 1) = true ∨ (JsInt.int 100).lt limit = true))
    (hpage : page ≠ .nan) (hlimit : limit ≠ .nan) :
    (page = .posInf ∨ ∃ p : Int, page = .int p ∧ 1 ≤ p) ∧
    ∃ l : Int, limit = .int l ∧ 1 ≤ l ∧ l ≤ 100 := by
  push_neg at h
  obtain ⟨hp, hl1, hl2⟩ := h
  constructor
  · cases page with
    | nan => exact absurd rfl hpage
    | posInf => exact Or.inl rfl
    | negInf => simp [JsInt.lt] at hp
    | int p =>
      simp [JsInt.lt] at hp
      exact Or.inr ⟨p, rfl, by omega⟩
  · cases limit with
    | nan => exact absurd rfl hlimit
    | posInf => simp [JsInt.lt] at hl2
    | negInf => simp [JsInt.lt] at hl1
    | int l =>
      simp [JsInt.lt] at hl1 hl2
      exact ⟨l, rfl, by omega, by omega⟩

theorem orDefault_ne_nan (n : JsInt) (d : Int) : orDefault n d ≠ .nan := by
  cases n with
  | int k =>
    simp only [orDefault]
    split <;> simp
  | _ => simp [orDefault]

theorem ceilDiv_le_iff (total : Nat) {limit : Int} (hl : 0 < limit) (z : Int) :
    ceilDiv total limit ≤ z ↔ (total : Int) ≤ z * limit := by
  have hq : (0 : ℚ) < (limit : ℚ) := by exact_mod_cast hl
  unfold ceilDiv
  rw [Int.ceil_le, div_le_iff₀ hq]
  constructor
  · intro h
    exact_mod_cast h
  · intro h
    exact_mod_cast h

theorem ceilDiv_nonneg (total : Nat) {limit : Int} (hl : 0 < limit) :
    0 ≤ ceilDiv total limit := by
  have hq : (0 : ℚ) < (limit : ℚ) := by exact_mod_cast hl
  unfold ceilDiv
  exact Int.ceil_nonneg (div_nonneg (Nat.cast_nonneg _) hq.le)

theorem findSorted_perm (db : Collection) : (findSorted db).Perm db :=
  List.perm_insertionSort newerFirst db

theorem findSorted_sorted (db : Collection) : (findSorted db).Sorted newerFirst :=
  List.sorted_insertionSort newerFirst db

theorem findSorted_length (db : Collection) : (findSorted db).length = db.length :=
  (findSorted_perm db).length_eq

/-- The handler's result when its `page` and `limit` (the parsed parameters or
their defaults) are in range and the store answers. -/
theorem getHistory_of_valid (env : Env) (q : HistoryQuery) (db : Collection) (p l : Int)
    (hc : env.countFails = false) (hf : env.findFails = false)
    (hpage : orDefault (parseIntParam q.page) 1 = .int p)
    (hlimit : orDefault (parseIntParam q.limit) 20 = .int l)
    (h1 : 1 ≤ p) (h2 : 1 ≤ l) (h3 : l ≤ 100) :
    getHistory env q db =
      ⟨⟨200, .history (((findSorted db).drop ((p - 1) * l).toNat).take l.toNat)
          ⟨.int p, .int l, db.length, .int (ceilDiv db.length l)⟩⟩, db,
        [.countDocuments, .find (.int ((p - 1) * l)) (.int l)]⟩ := by
  have hv : ¬ (decide (p < 1) = true ∨ decide (l < 1) = true ∨ decide (100 < l) = true) := by
    simp only [decide_eq_true_eq]; omega
  have hl0 : l ≠ 0 := by omega
  simp only [getHistory, hpage, hlimit, JsInt.lt, JsInt.sub, JsInt.mul, hv, hc, hf, if_false,
    Bool.false_eq_true, findPage, skipDocs, limitDocs, pagesOf, hl0]

/-- An infinite `page` passes the guard and, the store answering, is answered
200 with no data. -/
theorem getHistory_of_infinite_page (env : Env) (q : HistoryQuery) (db : Collection) (l : Int)
    (hc : env.countFails = false) (hf : env.findFails = false)
    (hpage : orDefault (parseIntParam q.page) 1 = .posInf)
    (hlimit : orDefault (parseIntParam q.limit) 20 = .int l)
    (h2 : 1 ≤ l) (h3 : l ≤ 100) :
    getHistory env q db =
      ⟨⟨200, .history [] ⟨.posInf, .int l, db.length, .int (ceilDiv db.length l)⟩⟩, db,
        [.countDocuments, .find .posInf (.int l)]⟩ := by
  have hv : ¬ (False ∨ decide (l < 1) = true ∨ decide (100 < l) = true) := by
    simp; omega
  have hl0 : l ≠ 0 := by omega
  have hpos : decide (0 < l) = true := by simp only [decide_eq_true_eq]; omega
  simp only [getHistory, hpage, hlimit, JsInt.lt, JsInt.sub, JsInt.mul, JsInt.mulInf, hv, hc, hf,
    if_false, Bool.false_eq_true, findPage, skipDocs, limitDocs, pagesOf, hl0, hpos, Bool.not_false,
    if_true, List.take_nil]

theorem slice_length (db : Collection) (skip limit : Int) :
    (((findSorted db).drop skip.toNat).take limit.toNat).length =
      min limit.toNat (db.length - skip.toNat) := by
  simp [findSorted_length]

/-- Consecutive chunks of `m` elements concatenate to a prefix. -/
theorem join_chunks {α : Type} (L : List α) (m : Nat) (k : Nat) :
    ((List.range k).map fun i => (L.drop (i * m)).take m).flatten = L.take (k * m) := by
  induction k with
  | zero => simp
  | succ k ih =>
    rw [List.range_succ, List.map_append, List.flatten_append, ih]
    simp only [List.map_cons, List.map_nil, List.flatten_cons, List.flatten_nil, List.append_nil]
    rw [Nat.succ_mul, List.take_add]

/-- A negative `page` or `limit`, or a `limit` above 100, is rejected with 400
before any store query. -/
theorem getHistory_out_of_range (env : Env) (q : HistoryQuery) (db : Collection)
    (h : (∃ p, parseIntParam q.page = .int p ∧ p < 0) ∨
      ∃ l, parseIntParam q.limit = .int l ∧ (l < 0 ∨ 100 < l)) :
    getHistory env q db = ⟨⟨400, .error (.str invalidPaginationMessage)⟩, db, []⟩ := by
  have hv : (orDefault (parseIntParam q.page) 1).lt (.int 1) = true ∨
      (orDefault (parseIntParam q.limit) 20).lt (.int 1) = true ∨
      (JsInt.int 100).lt (orDefault (parseIntParam q.limit) 20) = true := by
    rcases h with ⟨p, hp, hneg⟩ | ⟨l, hl, hout⟩
    · left
      have : p ≠ 0 := by omega
      simp only [hp, orDefault, this, if_false, JsInt.lt, decide_eq_true_eq]
      omega
    · right
      have : l ≠ 0 := by omega
      simp only [hl, orDefault, this, if_false, JsInt.lt, decide_eq_true_eq]
      omega
  simp only [getHistory, hv, if_true]

end Aux

/-! ## GET /api/history: theorems -/

/-- C4: with `page >= 1` and `1 <= limit <= 100` (and the store answering), the
returned data is the slice of the newest-first ordering of all records that
skips `(page - 1) * limit` records and holds at most `limit` of them; its
length is `min(limit, max(0, total - skip))`.  Here `p` and `l` are the
handler's `page` and `limit`: the parsed parameters, or their defaults. -/
theorem history_page_is_slice (env : Env) (q : HistoryQuery) (db : Collection) (p l : Int)
    (hc : env.countFails = false) (hf : env.findFails = false)
    (hp : orDefault (parseIntParam q.page) 1 = .int p)
    (hl : orDefault (parseIntParam q.limit) 20 = .int l)
    (h1 : 1 ≤ p) (h2 : 1 ≤ l) (h3 : l ≤ 100) :
    (getHistory env q db).response.status = 200 ∧
    (getHistory env q db).data = ((findSorted db).drop ((p - 1) * l).toNat).take l.toNat ∧
    (findSorted db).Sorted newerFirst ∧ (findSorted db).Perm db ∧
    ((getHistory env q db).data.length : Int) = min l (max 0 ((db.length : Int) - (p - 1) * l)) := by
  rw [getHistory_of_valid env q db p l hc hf hp hl h1 h2 h3]
  refine ⟨rfl, rfl, findSorted_sorted db, findSorted_perm db, ?_⟩
  show ((((findSorted db).drop ((p - 1) * l).toNat).take l.toNat).length : Int) = _
  rw [slice_length]
  have hs : 0 ≤ (p - 1) * l := mul_nonneg (by omega) (by omega)
  omega

/-- Scenario D: with `r 1 .. r 25` stored, `page=2&limit=10` returns `r 15 .. r 6`. -/
theorem history_page_is_slice_witness :
    Env.healthy.countFails = false ∧ Env.healthy.findFails = false ∧
    orDefault (parseIntParam (some "2")) 1 = .int 2 ∧
    orDefault (parseIntParam (some "10")) 20 = .int 10 ∧
    (getHistory Env.healthy ⟨some "2", some "10"⟩ scenarioStore).response.status = 200 ∧
    (getHistory Env.healthy ⟨some "2", some "10"⟩ scenarioStore).data =
      [15, 14, 13, 12, 11, 10, 9, 8, 7, 6].map scenarioRecord := by
  have h := history_page_is_slice Env.healthy ⟨some "2", some "10"⟩ scenarioStore 2 10
    rfl rfl (by decide) (by decide) (by decide) (by decide) (by decide)
  refine ⟨rfl, rfl, by decide, by decide, h.1, ?_⟩
  rw [h.2.1]
  decide

/-- C5 (failing inputs): `page=0` and `limit=0` are not rejected.  `parseInt`
gives 0, which `||` replaces by the default, so the request is answered exactly
as if the parameter were absent: status 200, after querying the store. -/
theorem history_zero_params_accepted :
    (∀ env limit db, getHistory env ⟨some "0", limit⟩ db = getHistory env ⟨none, limit⟩ db) ∧
    (∀ env page db, getHistory env ⟨page, some "0"⟩ db = getHistory env ⟨page, none⟩ db) ∧
    (getHistory Env.healthy ⟨some "0", none⟩ scenarioStore).response.status = 200 ∧
    (getHistory Env.healthy ⟨some "0", none⟩ scenarioStore).effects.any Effect.isStoreQuery = true ∧
    (getHistory Env.healthy ⟨none, some "0"⟩ scenarioStore).response.status = 200 ∧
    (getHistory Env.healthy ⟨none, some "0"⟩ scenarioStore).effects.any Effect.isStoreQuery = true := by
  have h0 : parseIntParam (some "0") = .int 0 := by decide
  refine ⟨?_, ?_, by decide, by decide, by decide, by decide⟩
  · intro env limit db
    simp only [getHistory, h0, parseIntParam_none, orDefault, if_true]
  · intro env page db
    simp only [getHistory, h0, parseIntParam_none, orDefault, if_true]

/-- C6: a 200 response of the history handler carries the effective page and
limit (the page at least 1, the limit from 1 to 100), `total` is the number of
stored records, and `pages` is the ceiling of `total / limit`: zero for an
empty store and in general the least natural number `n` with
`n * limit >= total`. -/
theorem history_pagination (env : Env) (q : HistoryQuery) (db : Collection)
    (h : (getHistory env q db).response.status = 200) :
    ∃ (data : List SearchHistory) (page : JsInt) (limit pages : Int),
      (getHistory env q db).response.body =
        .history data ⟨page, .int limit, db.length, .int pages⟩ ∧
      page = orDefault (parseIntParam q.page) 1 ∧
      .int limit = orDefault (parseIntParam q.limit) 20 ∧
      (page = .posInf ∨ ∃ p : Int, page = .int p ∧ 1 ≤ p) ∧
      1 ≤ limit ∧ limit ≤ 100 ∧
      pages = ⌈(db.length : ℚ) / (limit : ℚ)⌉ ∧
      (db.length = 0 → pages = 0) ∧
      0 ≤ pages ∧ (db.length : Int) ≤ pages * limit ∧
      ∀ n : Nat, (db.length : Int) ≤ n * limit → pages ≤ n := by
  by_cases hv : (orDefault (parseIntParam q.page) 1).lt (.int 1) = true ∨
      (orDefault (parseIntParam q.limit) 20).lt (.int 1) = true ∨
      (JsInt.int 100).lt (orDefault (parseIntParam q.limit) 20) = true
  · simp [getHistory, hv] at h
  · cases hc : env.countFails
    · cases hf : env.findFails
      · obtain ⟨hpage, l, hlim, hl1, hl100⟩ :=
          guard_passed hv (orDefault_ne_nan _ _) (orDefault_ne_nan _ _)
        have hl : 0 < l := by omega
        have hfacts : ceilDiv db.length l = ⌈(db.length : ℚ) / (l : ℚ)⌉ ∧
            (db.length = 0 → ceilDiv db.length l = 0) ∧
            0 ≤ ceilDiv db.length l ∧ (db.length : Int) ≤ ceilDiv db.length l * l ∧
            ∀ n : Nat, (db.length : Int) ≤ n * l → ceilDiv db.length l ≤ n := by
          refine ⟨rfl, ?_, ceilDiv_nonneg _ hl, ?_, ?_⟩
          · intro h0
            apply le_antisymm
            · rw [ceilDiv_le_iff _ hl, h0]; simp
            · exact ceilDiv_nonneg _ hl
          · exact (ceilDiv_le_iff _ hl _).mp le_rfl
          · intro n hn
            exact (ceilDiv_le_iff _ hl _).mpr hn
        rcases hpage with hinf | ⟨p, hp, hp1⟩
        · refine ⟨[], .posInf, l, ceilDiv db.length l, ?_, hinf.symm, hlim.symm, Or.inl rfl,
            hl1, hl100, hfacts⟩
          rw [getHistory_of_infinite_page env q db l hc hf hinf hlim hl1 hl100]
        · refine ⟨((findSorted db).drop ((p - 1) * l).toNat).take l.toNat, .int p, l,
            ceilDiv db.length l, ?_, hp.symm, hlim.symm, Or.inr ⟨p, rfl, hp1⟩, hl1, hl100, hfacts⟩
          rw [getHistory_of_valid env q db p l hc hf hp hlim hp1 hl1 hl100]
      · simp [getHistory, hv, hc, hf] at h
    · simp [getHistory, hv, hc] at h

/-- Scenario D: the pagination of `page=2&limit=10` over 25 records; and a
`page` of 2^53 + 1 is echoed as the double 2^53 that `parseInt` returns. -/
theorem history_pagination_witness :
    (getHistory Env.healthy ⟨some "2", some "10"⟩ scenarioStore).response.status = 200 ∧
    (∃ data, (getHistory Env.healthy ⟨some "2", some "10"⟩ scenarioStore).response.body =
      .history data ⟨.int 2, .int 10, 25, .int 3⟩) ∧
    (getHistory Env.healthy ⟨some "9007199254740993", none⟩ scenarioStore).response.status = 200 ∧
    ∃ data pages,
      (getHistory Env.healthy ⟨some "9007199254740993", none⟩ scenarioStore).response.body =
        .history data ⟨.int 9007199254740992, .int 20, 25, pages⟩ := by
  have hn : scenarioStore.length = 25 := by decide
  refine ⟨by decide, ?_, by decide, ?_⟩
  · obtain ⟨data, page, limit, pages, hb, hp, hl, -, -, -, -, -, -, h1, h2⟩ :=
      history_pagination Env.healthy ⟨some "2", some "10"⟩ scenarioStore (by decide)
    have hp2 : page = .int 2 := by rw [hp]; decide
    have hl2 : limit = 10 := by
      have : JsInt.int limit = .int 10 := by rw [hl]; decide
      injection this
    subst hp2 hl2
    rw [hn] at hb h1 h2
    have h3 := h2 3 (by norm_num)
    have : pages = 3 := by
      have h1' : (25 : Int) ≤ pages * 10 := by exact_mod_cast h1
      have h3' : pages ≤ 3 := by exact_mod_cast h3
      omega
    subst this
    exact ⟨data, hb⟩
  · obtain ⟨data, page, limit, pages, hb, hp, hl, -⟩ :=
      history_pagination Env.healthy ⟨some "9007199254740993", none⟩ scenarioStore (by decide)
    have hp2 : page = .int 9007199254740992 := by rw [hp]; decide
    have hl2 : JsInt.int limit = .int 20 := by rw [hl]; decide
    rw [hn, hp2, hl2] at hb
    exact ⟨data, .int pages, hb⟩

/-- C9: an absent `page` is answered exactly as `page=1`, an absent `limit`
exactly as `limit=20`; a request with neither returns (the store answering) the
20 newest records, or all of them if fewer, with `page = 1` and `limit = 20`. -/
theorem history_defaults :
    (∀ env limit db, getHistory env ⟨none, limit⟩ db = getHistory env ⟨some "1", limit⟩ db) ∧
    (∀ env page db, getHistory env ⟨page, none⟩ db = getHistory env ⟨page, some "20"⟩ db) ∧
    (∀ env db, env.countFails = false → env.findFails = false →
      (getHistory env ⟨none, none⟩ db).response.status = 200 ∧
      (getHistory env ⟨none, none⟩ db).response.body =
        .history ((findSorted db).take 20)
          ⟨.int 1, .int 20, db.length, .int (ceilDiv db.length 20)⟩ ∧
      ((findSorted db).take 20).length = min 20 db.length) := by
  refine ⟨?_, ?_, ?_⟩
  · intro env limit db
    simp only [getHistory, parseIntParam_one, parseIntParam_none, orDefault]
    rfl
  · intro env page db
    simp only [getHistory, parseIntParam_twenty, parseIntParam_none, orDefault]
    rfl
  · intro env db hc hf
    have hq := getHistory_of_valid env ⟨none, none⟩ db 1 20 hc hf
      (by simp only [parseIntParam_none, orDefault]) (by simp only [parseIntParam_none, orDefault])
      (by decide) (by decide) (by decide)
    rw [hq]
    refine ⟨rfl, ?_, ?_⟩
    · simp
    · simp [findSorted_length]

/-- With `r 1 .. r 25` stored, a request without parameters returns `r 25 .. r 6`. -/
theorem history_defaults_witness :
    Env.healthy.countFails = false ∧ Env.healthy.findFails = false ∧
    (getHistory Env.healthy ⟨none, none⟩ scenarioStore).response.status = 200 ∧
    (getHistory Env.healthy ⟨none, none⟩ scenarioStore).data =
      [25, 24, 23, 22, 21, 20, 19, 18, 17, 16, 15, 14, 13, 12, 11, 10, 9, 8, 7, 6].map
        scenarioRecord := by
  have h := history_defaults.2.2 Env.healthy scenarioStore rfl rfl
  refine ⟨rfl, rfl, h.1, ?_⟩
  simp only [Outcome.data, h.2.1]
  decide

/-- C10: for `1 <= limit <= 100` (the store answering), the pages
`1 .. pages` with `pages = ceil(total / limit)` partition the history: their
data concatenate to a list that is sorted by `createdAt` descending and is a
permutation of the store (every record exactly once), namely the newest-first
ordering; every page before the last holds exactly `limit` records, the last
holds between 1 and `limit`, and every page after it (an infinite one
included) is answered with status 200 and no data.  `qs p` is any request for which the handler's `page` is `p`
and its `limit` the given one. -/
theorem history_pages_partition (env : Env) (db : Collection) (l : Int)
    (qs : Nat → HistoryQuery)
    (hc : env.countFails = false) (hf : env.findFails = false)
    (h2 : 1 ≤ l) (h3 : l ≤ 100)
    (hqs : ∀ p : Nat, 1 ≤ p → p ≤ (ceilDiv db.length l).toNat →
      orDefault (parseIntParam (qs p).page) 1 = .int (p : Int) ∧
      orDefault (parseIntParam (qs p).limit) 20 = .int l) :
    (ceilDiv db.length l = ⌈(db.length : ℚ) / (l : ℚ)⌉) ∧
    ((List.range (ceilDiv db.length l).toNat).map fun i =>
        (getHistory env (qs (i + 1)) db).data).flatten = findSorted db ∧
    (findSorted db).Sorted newerFirst ∧
    (((List.range (ceilDiv db.length l).toNat).map fun i =>
        (getHistory env (qs (i + 1)) db).data).flatten).Sorted newerFirst ∧
    (((List.range (ceilDiv db.length l).toNat).map fun i =>
        (getHistory env (qs (i + 1)) db).data).flatten).Perm db ∧
    (∀ p : Nat, 1 ≤ p → p < (ceilDiv db.length l).toNat →
      (getHistory env (qs p) db).response.status = 200 ∧
      ((getHistory env (qs p) db).data.length : Int) = l) ∧
    (1 ≤ (ceilDiv db.length l).toNat →
      (getHistory env (qs (ceilDiv db.length l).toNat) db).response.status = 200 ∧
      1 ≤ (getHistory env (qs (ceilDiv db.length l).toNat) db).data.length ∧
      ((getHistory env (qs (ceilDiv db.length l).toNat) db).data.length : Int) ≤ l) ∧
    (∀ (q : HistoryQuery) (p : Int), orDefault (parseIntParam q.page) 1 = .int p →
      orDefault (parseIntParam q.limit) 20 = .int l → ceilDiv db.length l < p →
      (getHistory env q db).response.status = 200 ∧ (getHistory env q db).data = []) ∧
    (∀ q : HistoryQuery, orDefault (parseIntParam q.page) 1 = .posInf →
      orDefault (parseIntParam q.limit) 20 = .int l →
      (getHistory env q db).response.status = 200 ∧ (getHistory env q db).data = []) := by
  have hl : 0 < l := by omega
  have hP0 : 0 ≤ ceilDiv db.length l := ceilDiv_nonneg _ hl
  have hPle : (db.length : Int) ≤ ceilDiv db.length l * l := (ceilDiv_le_iff _ hl _).mp le_rfl
  have hPmin : ∀ z : Int, z < ceilDiv db.length l → z * l < db.length := by
    intro z hz
    by_contra hcon
    have := (ceilDiv_le_iff db.length hl z).mpr (by omega)
    omega
  obtain ⟨m, hm⟩ : ∃ m : Nat, l = (m : Int) := ⟨l.toNat, by omega⟩
  obtain ⟨P, hP⟩ : ∃ P : Nat, ceilDiv db.length l = (P : Int) := ⟨_, (Int.toNat_of_nonneg hP0).symm⟩
  have hm1 : 1 ≤ m := by omega
  have hPtoNat : (ceilDiv db.length l).toNat = P := by omega
  rw [hPtoNat] at hqs ⊢
  have hdata : ∀ p : Nat, 1 ≤ p → p ≤ P →
      getHistory env (qs p) db =
        ⟨⟨200, .history (((findSorted db).drop ((p - 1) * m)).take m)
          ⟨.int p, .int l, db.length, .int (ceilDiv db.length l)⟩⟩, db,
          [.countDocuments, .find (.int (((p : Int) - 1) * l)) (.int l)]⟩ := by
    intro p hp1 hpP
    obtain ⟨ha, hb⟩ := hqs p hp1 hpP
    rw [getHistory_of_valid env (qs p) db p l hc hf ha hb (by omega) h2 h3]
    have e1 : (((p : Int) - 1) * l).toNat = (p - 1) * m := by
      have : ((p : Int) - 1) * l = (((p - 1) * m : Nat) : Int) := by
        rw [hm]; push_cast [Nat.cast_sub hp1]; ring
      rw [this, Int.toNat_ofNat]
    have e2 : l.toNat = m := by omega
    simp only [e1, e2]
  have hlen : (findSorted db).length = db.length := findSorted_length db
  have hPle' : db.length ≤ P * m := by
    have : (db.length : Int) ≤ (P : Int) * (m : Int) := by rw [← hP, ← hm]; exact hPle
    exact_mod_cast this
  have hPmin' : ∀ k : Nat, k < P → k * m < db.length := by
    intro k hk
    have := hPmin (k : Int) (by omega)
    rw [hm] at this
    exact_mod_cast this
  have hcat : ((List.range P).map fun i => (getHistory env (qs (i + 1)) db).data).flatten =
      findSorted db := by
    have : ((List.range P).map fun i => (getHistory env (qs (i + 1)) db).data) =
        (List.range P).map fun i => ((findSorted db).drop (i * m)).take m := by
      apply List.map_congr_left
      intro i hi
      rw [List.mem_range] at hi
      rw [hdata (i + 1) (by omega) (by omega)]
      simp [Outcome.data]
    rw [this, join_chunks, List.take_of_length_le (by omega)]
  refine ⟨rfl, hcat, findSorted_sorted db, ?_, ?_, ?_, ?_, ?_, ?_⟩
  · rw [hcat]; exact findSorted_sorted db
  · rw [hcat]; exact findSorted_perm db
  · intro p hp1 hpP
    rw [hdata p hp1 (by omega)]
    refine ⟨rfl, ?_⟩
    have hk := hPmin' p hpP
    have : ((p - 1) * m) + m = p * m := by
      obtain ⟨k, rfl⟩ : ∃ k, p = k + 1 := ⟨p - 1, by omega⟩
      simp [Nat.succ_mul]
    simp only [Outcome.data, List.length_take, List.length_drop, hlen, hm]
    have hmin : min m (db.length - (p - 1) * m) = m := by omega
    rw [hmin]
  · intro hP1
    rw [hdata P hP1 le_rfl]
    have hk := hPmin' (P - 1) (by omega)
    refine ⟨rfl, ?_, ?_⟩ <;>
      simp only [Outcome.data, List.length_take, List.length_drop, hlen, hm]
    · omega
    · have : min m (db.length - (P - 1) * m) ≤ m := Nat.min_le_left _ _
      exact_mod_cast this
  · intro q p ha hb hlt
    have hp1 : 1 ≤ p := by omega
    rw [getHistory_of_valid env q db p l hc hf ha hb hp1 h2 h3]
    refine ⟨rfl, ?_⟩
    simp only [Outcome.data]
    have hskip : db.length ≤ ((p - 1) * l).toNat := by
      have h1 : (ceilDiv db.length l) * l ≤ (p - 1) * l :=
        mul_le_mul_of_nonneg_right (by omega) hl.le
      omega
    rw [List.drop_of_length_le (by omega), List.take_nil]
  · intro q ha hb
    rw [getHistory_of_infinite_page env q db l hc hf ha hb h2 h3]
    exact ⟨rfl, rfl⟩

/-- The 25 records of Scenario D are covered by three pages of 10, 10 and 5,
which concatenate to `r 25 .. r 1`. -/
theorem history_pages_partition_witness :
    Env.healthy.countFails = false ∧ Env.healthy.findFails = false ∧
    ((1 : Int) ≤ 10 ∧ (10 : Int) ≤ 100) ∧
    (∀ p : Nat, 1 ≤ p → p ≤ 3 →
      orDefault (parseIntParam (scenarioPages p).page) 1 = .int (p : Int) ∧
      orDefault (parseIntParam (scenarioPages p).limit) 20 = .int 10) ∧
    ceilDiv scenarioStore.length 10 = 3 ∧
    ((List.range 3).map fun i =>
        (getHistory Env.healthy (scenarioPages (i + 1)) scenarioStore).data).flatten =
      [25, 24, 23, 22, 21, 20, 19, 18, 17, 16, 15, 14, 13, 12, 11, 10, 9, 8, 7, 6, 5, 4, 3, 2,
        1].map scenarioRecord ∧
    (getHistory Env.healthy (scenarioPages 1) scenarioStore).data =
      [25, 24, 23, 22, 21, 20, 19, 18, 17, 16].map scenarioRecord ∧
    (getHistory Env.healthy (scenarioPages 3) scenarioStore).data =
      [5, 4, 3, 2, 1].map scenarioRecord ∧
    (getHistory Env.healthy ⟨some "4", some "10"⟩ scenarioStore).response.status = 200 ∧
    (getHistory Env.healthy ⟨some "4", some "10"⟩ scenarioStore).data = [] := by
  have hpages : ceilDiv scenarioStore.length 10 = 3 := by
    apply le_antisymm
    · rw [ceilDiv_le_iff _ (by decide)]; decide
    · by_contra hcon
      have h2 : ceilDiv scenarioStore.length 10 ≤ 2 := by omega
      rw [ceilDiv_le_iff _ (by decide)] at h2
      revert h2
      decide
  have hq : ∀ p : Nat, 1 ≤ p → p ≤ 3 →
      orDefault (parseIntParam (scenarioPages p).page) 1 = .int (p : Int) ∧
      orDefault (parseIntParam (scenarioPages p).limit) 20 = .int 10 := by
    intro p h1 h3
    interval_cases p <;> decide
  have h := history_pages_partition Env.healthy scenarioStore 10 scenarioPages rfl rfl
    (by decide) (by decide) (by rw [hpages]; exact hq)
  rw [hpages] at h
  have hsorted : findSorted scenarioStore =
      [25, 24, 23, 22, 21, 20, 19, 18, 17, 16, 15, 14, 13, 12, 11, 10, 9, 8, 7, 6, 5, 4, 3, 2,
        1].map scenarioRecord := by decide
  have hlast := h.2.2.2.2.2.2.2.1 ⟨some "4", some "10"⟩ 4 (by decide) (by decide) (by decide)
  exact ⟨rfl, rfl, ⟨by decide, by decide⟩, hq, hpages, h.2.1.trans hsorted, by decide, by decide,
    hlast.1, hlast.2⟩

/-! ## POST /api/search: auxiliary facts -/

section SearchAux

theorem jsTrim_idem (s : String) : jsTrim (jsTrim s) = jsTrim s := by
  unfold jsTrim
  congr 1
  show (List.dropWhile isJsWhitespace ((s.data.dropWhile isJsWhitespace).rdropWhile isJsWhitespace)).rdropWhile
      isJsWhitespace = _
  have hd : List.dropWhile isJsWhitespace ((s.data.dropWhile isJsWhitespace).rdropWhile isJsWhitespace) =
      (s.data.dropWhile isJsWhitespace).rdropWhile isJsWhitespace := by
    rw [List.dropWhile_eq_self_iff]
    intro hl
    have hpre : (s.data.dropWhile isJsWhitespace).rdropWhile isJsWhitespace <+:
        s.data.dropWhile isJsWhitespace := List.rdropWhile_prefix _ _
    have hl2 : 0 < (s.data.dropWhile isJsWhitespace).length := lt_of_lt_of_le hl hpre.length_le
    have hnot := List.dropWhile_get_zero_not isJsWhitespace s.data hl2
    have heq : ((s.data.dropWhile isJsWhitespace).rdropWhile isJsWhitespace).get ⟨0, hl⟩ =
        (s.data.dropWhile isJsWhitespace).get ⟨0, hl2⟩ := by
      simp only [List.get_eq_getElem]
      exact hpre.getElem hl
    rw [heq]
    exact hnot
  rw [hd, List.rdropWhile_idempotent]

theorem length_ne_zero_of_jsTrim {s : String} (h : (jsTrim s).length ≠ 0) : s.length ≠ 0 := by
  intro h0
  apply h
  have : s.data = [] := List.length_eq_zero.mp h0
  simp [jsTrim, this, String.length]

theorem requiredString_cast {env : Env} {v : JsVal} {t : String}
    (h : requiredString (castTrimmedString env v) = some t) :
    t.length ≠ 0 ∧ jsTrim t = t ∧ (∀ s, v = .str s → t = jsTrim s) ∧
      v ≠ .undefined ∧ v ≠ .null := by
  have key : ∀ c : Cast String, (∀ x, c = .value x → jsTrim x = x) →
      requiredString c = some t → t.length ≠ 0 ∧ jsTrim t = t := by
    intro c hc hr
    cases c with
    | castError => simp [requiredString] at hr
    | absent => simp [requiredString] at hr
    | value x =>
      simp only [requiredString] at hr
      split at hr
      · injection hr with hr
        subst hr
        exact ⟨by assumption, hc x rfl⟩
      · exact absurd hr (by simp)
  have hother : ∀ w : JsVal, ∀ x,
      (match env.castOtherToString w with
        | .value s => Cast.value (jsTrim s)
        | c => c) = .value x → jsTrim x = x := by
    intro w x hx
    split at hx
    · injection hx with hx
      rw [← hx, jsTrim_idem]
    · rename_i hne
      exact absurd hx (hne x)
  cases v with
  | undefined => simp [castTrimmedString, requiredString] at h
  | null => simp [castTrimmedString, requiredString] at h
  | str s =>
    simp only [castTrimmedString] at h
    have := key _ (fun x hx => by injection hx with hx; rw [← hx, jsTrim_idem]) h
    refine ⟨this.1, this.2, ?_, by simp, by simp⟩
    intro s1 hs1
    injection hs1 with hs1
    subst hs1
    simp only [requiredString] at h
    split at h
    · injection h with h; exact h.symm
    · exact absurd h (by simp)
  | bool b =>
    have := key _ (hother (.bool b)) h
    exact ⟨this.1, this.2, by simp, by simp, by simp⟩
  | num n =>
    have := key _ (hother (.num n)) h
    exact ⟨this.1, this.2, by simp, by simp, by simp⟩
  | array xs =>
    have := key _ (hother (.array xs)) h
    exact ⟨this.1, this.2, by simp, by simp, by simp⟩
  | object fs =>
    have := key _ (hother (.object fs)) h
    exact ⟨this.1, this.2, by simp, by simp, by simp⟩

theorem requiredUnitNumber_cast {env : Env} {v : JsVal} {n : JsNum}
    (h : requiredUnitNumber (castNumber env v) = some n) :
    (∃ q : ℚ, n = .fin q ∧ 0 ≤ q ∧ q ≤ 1) ∧ (∀ k, v = .num k → n = k) ∧
      v ≠ .undefined ∧ v ≠ .null := by
  have key : ∀ c : Cast JsNum, requiredUnitNumber c = some n →
      c = .value n ∧ ∃ q : ℚ, n = .fin q ∧ 0 ≤ q ∧ q ≤ 1 := by
    intro c hr
    cases c with
    | castError => simp [requiredUnitNumber] at hr
    | absent => simp [requiredUnitNumber] at hr
    | value x =>
      simp only [requiredUnitNumber] at hr
      split at hr
      · rename_i hx
        injection hr with hr
        subst hr
        refine ⟨rfl, ?_⟩
        cases x with
        | fin q =>
          simp only [JsNum.atLeastZero, JsNum.atMostOne, decide_eq_true_eq] at hx
          exact ⟨q, rfl, hx.1, hx.2⟩
        | nan => simp [JsNum.atLeastZero] at hx
        | posInf => simp [JsNum.atMostOne] at hx
        | negInf => simp [JsNum.atLeastZero] at hx
      · exact absurd hr (by simp)
  obtain ⟨hc, hq⟩ := key _ h
  refine ⟨hq, ?_, ?_, ?_⟩
  · intro k hk
    subst hk
    cases k with
    | nan => simp [castNumber] at hc
    | posInf => simp only [castNumber] at hc; injection hc with hc; exact hc.symm
    | negInf => simp only [castNumber] at hc; injection hc with hc; exact hc.symm
    | fin q => simp only [castNumber] at hc; injection hc with hc; exact hc.symm
  · intro hv
    subst hv
    simp [castNumber] at hc
  · intro hv
    subst hv
    simp [castNumber] at hc

/-- A document that passes validation satisfies the schema's constraints, its
`lyrics` is the trimmed string it was built from, and a numeric `confidence`
is stored unchanged. -/
theorem validate_new {env : Env} {t : String} {song artist confidence : JsVal}
    {doc : SearchHistory}
    (h : validate env (SearchHistory.new env (.str t) song artist confidence) = some doc) :
    ValidRecord doc ∧ doc._id = env.newId ∧ doc.lyrics = jsTrim t ∧
      (∀ k, confidence = .num k → doc.confidence = k) ∧
      song ≠ .undefined ∧ song ≠ .null ∧ artist ≠ .undefined ∧ artist ≠ .null ∧
      confidence ≠ .undefined ∧ confidence ≠ .null := by
  simp only [validate, SearchHistory.new] at h
  split at h
  · rename_i l sg ar cf hl hsg har hcf
    injection h with h
    subst h
    have h1 := requiredString_cast hl
    have h2 := requiredString_cast hsg
    have h3 := requiredString_cast har
    have h4 := requiredUnitNumber_cast hcf
    exact ⟨⟨⟨h1.1, h1.2.1⟩, ⟨h2.1, h2.2.1⟩, ⟨h3.1, h3.2.1⟩, h4.1⟩, rfl, h1.2.2.1 t rfl,
      h4.2.1, h2.2.2.2.1, h2.2.2.2.2, h3.2.2.2.1, h3.2.2.2.2, h4.2.2.1, h4.2.2.2⟩
  · exact absurd h (by simp)

theorem postSearch_invalid (env : Env) (ml : String → MlReply) (lyrics : JsVal) (db : Collection)
    (h : ∀ s, lyrics = .str s → (jsTrim s).length = 0) :
    postSearch env ml lyrics db = ⟨⟨400, .error (.str lyricsRequiredMessage)⟩, db, []⟩ := by
  cases lyrics with
  | str s => simp [postSearch, h s rfl]
  | _ => rfl

/-- For a string with non-empty trim the handler calls the ML service and
continues by its reply. -/
theorem postSearch_valid (env : Env) (ml : String → MlReply) (s : String) (db : Collection)
    (hs : (jsTrim s).length ≠ 0) :
    postSearch env ml (.str s) db =
      match ml (jsTrim s) with
      | .errorResponse status data =>
        match data.getProp "detail" with
        | none => ⟨⟨500, .internalError .typeError⟩, db, [.mlPredict (jsTrim s)]⟩
        | some detail =>
          ⟨⟨status, .error (if detail.truthy then detail else .str "ML service error")⟩, db,
            [.mlPredict (jsTrim s)]⟩
      | .noResponse => ⟨⟨503, .error (.str mlUnavailableMessage)⟩, db, [.mlPredict (jsTrim s)]⟩
      | .setupError =>
        ⟨⟨500, .error (.str "Error calling ML service")⟩, db, [.mlPredict (jsTrim s)]⟩
      | .resolved data =>
        match data.getProp "song", data.getProp "artist", data.getProp "confidence" with
        | some song, some artist, some confidence =>
          match save env (SearchHistory.new env (.str (jsTrim s)) song artist confidence) db with
          | .error cause =>
            ⟨⟨500, .internalError cause⟩, db,
              [.mlPredict (jsTrim s),
                .save (SearchHistory.new env (.str (jsTrim s)) song artist confidence)]⟩
          | .ok db1 =>
            ⟨⟨200, .searchResult song artist confidence
                (SearchHistory.new env (.str (jsTrim s)) song artist confidence)._id⟩, db1,
              [.mlPredict (jsTrim s),
                .save (SearchHistory.new env (.str (jsTrim s)) song artist confidence)]⟩
        | _, _, _ => ⟨⟨500, .internalError .typeError⟩, db, [.mlPredict (jsTrim s)]⟩ := by
  have h0 : s.length ≠ 0 := length_ne_zero_of_jsTrim hs
  simp only [postSearch, JsVal.truthy, h0, hs, ne_eq, not_false_eq_true, decide_True,
    Bool.not_true, decide_False, Bool.or_self, Bool.false_eq_true, if_false]

theorem save_ok_iff {env : Env} {d : Draft} {db db1 : Collection} :
    save env d db = .ok db1 ↔
      ∃ doc, validate env d = some doc ∧ env.saveFails = false ∧ db1 = db ++ [doc] := by
  unfold save
  cases hv : validate env d with
  | none => simp
  | some doc =>
    cases hf : env.saveFails
    · show (if false = true then Except.error Failure.storeError else Except.ok (db ++ [doc])) =
          Except.ok db1 ↔ _
      rw [if_neg (by decide)]
      constructor
      · intro h
        injection h with h
        exact ⟨doc, rfl, rfl, h.symm⟩
      · rintro ⟨doc1, h1, -, h2⟩
        injection h1 with h1
        rw [h2, h1]
    · simp

/-- The collection after a call is the one before it, or the ML service
resolved and the collection has gained exactly one validated document, whose
identifier the 200 response carries. -/
theorem postSearch_db (env : Env) (ml : String → MlReply) (lyrics : JsVal) (db : Collection) :
    ((postSearch env ml lyrics db).db = db ∧
      ∀ song artist confidence id,
        (postSearch env ml lyrics db).response.body ≠ .searchResult song artist confidence id) ∨
    ∃ s data song artist confidence doc, lyrics = .str s ∧ (jsTrim s).length ≠ 0 ∧
      ml (jsTrim s) = .resolved data ∧ data.getProp "song" = some song ∧
      data.getProp "artist" = some artist ∧ data.getProp "confidence" = some confidence ∧
      validate env (SearchHistory.new env (.str (jsTrim s)) song artist confidence) = some doc ∧
      env.saveFails = false ∧
      (postSearch env ml lyrics db).db = db ++ [doc] ∧
      (postSearch env ml lyrics db).response =
        ⟨200, .searchResult song artist confidence env.newId⟩ := by
  by_cases h : ∀ s, lyrics = .str s → (jsTrim s).length = 0
  · left
    rw [postSearch_invalid env ml lyrics db h]
    exact ⟨rfl, fun _ _ _ _ hb => by injection hb⟩
  · push_neg at h
    obtain ⟨s, rfl, hs⟩ := h
    rw [postSearch_valid env ml s db hs]
    split
    · split <;> exact Or.inl ⟨rfl, fun _ _ _ _ hb => by injection hb⟩
    · exact Or.inl ⟨rfl, fun _ _ _ _ hb => by injection hb⟩
    · exact Or.inl ⟨rfl, fun _ _ _ _ hb => by injection hb⟩
    · rename_i data hml
      split
      · rename_i song artist confidence hsong hartist hconf
        split
        · exact Or.inl ⟨rfl, fun _ _ _ _ hb => by injection hb⟩
        · rename_i db1 hsave
          obtain ⟨doc, hv, hf, hdb⟩ := save_ok_iff.mp hsave
          exact Or.inr ⟨s, data, song, artist, confidence, doc, rfl, hs, hml, hsong, hartist,
            hconf, hv, hf, hdb, rfl⟩
      · exact Or.inl ⟨rfl, fun _ _ _ _ hb => by injection hb⟩

/-- Any response other than the success body leaves the collection as it was,
a failed `save()` included. -/
theorem postSearch_db_of_not_success (env : Env) (ml : String → MlReply) (lyrics : JsVal)
    (db : Collection)
    (h : ∀ song artist confidence id,
      (postSearch env ml lyrics db).response ≠ ⟨200, .searchResult song artist confidence id⟩) :
    (postSearch env ml lyrics db).db = db := by
  rcases postSearch_db env ml lyrics db with h1 | ⟨s, data, song, artist, confidence, doc, -, -, -,
    -, -, -, -, -, -, hr⟩
  · exact h1.1
  · exact absurd hr (h _ _ _ _)

theorem postSearch_preserves_valid (env : Env) (ml : String → MlReply) (lyrics : JsVal)
    (db : Collection) (hdb : ∀ r ∈ db, ValidRecord r) :
    ∀ r ∈ (postSearch env ml lyrics db).db, ValidRecord r := by
  rcases postSearch_db env ml lyrics db with h1 | ⟨s, data, song, artist, confidence, doc, -, -, -,
    -, -, -, hv, -, hdb1, -⟩
  · rw [h1.1]; exact hdb
  · rw [hdb1]
    intro r hr
    rcases List.mem_append.mp hr with h | h
    · exact hdb r h
    · rw [List.mem_singleton] at h
      rw [h]
      exact (validate_new hv).1

theorem runSearches_preserves_valid (calls : List SearchCall) :
    ∀ db : Collection, (∀ r ∈ db, ValidRecord r) → ∀ r ∈ runSearches calls db, ValidRecord r := by
  induction calls with
  | nil => intro db hdb; exact hdb
  | cons c cs ih =>
    intro db hdb
    exact ih _ (postSearch_preserves_valid c.env c.ml c.lyrics db hdb)

/-- Scenario A evaluated: the document passes validation and is appended. -/
theorem save_happy (db : Collection) :
    save Env.healthy (SearchHistory.new Env.healthy (.str (jsTrim "  feeling happy "))
      (.str "Happy") (.str "Pharrell Williams") (.num (.fin (23 / 25)))) db =
      .ok (db ++ [happyRecord]) := by
  have ht : jsTrim "  feeling happy " = "feeling happy" := by decide
  have h1 : jsTrim "feeling happy" = "feeling happy" := by decide
  have h2 : jsTrim "Happy" = "Happy" := by decide
  have h3 : jsTrim "Pharrell Williams" = "Pharrell Williams" := by decide
  rw [save_ok_iff]
  refine ⟨happyRecord, ?_, rfl, rfl⟩
  have e1 : ("feeling happy" : String).length ≠ 0 := by decide
  have e2 : ("Happy" : String).length ≠ 0 := by decide
  have e3 : ("Pharrell Williams" : String).length ≠ 0 := by decide
  have e4 : JsNum.atLeastZero (.fin (23 / 25)) = true ∧ JsNum.atMostOne (.fin (23 / 25)) = true := by
    simp only [JsNum.atLeastZero, JsNum.atMostOne, decide_eq_true_eq]
    constructor <;> norm_num
  simp only [validate, SearchHistory.new, castTrimmedString, castNumber, requiredString,
    requiredUnitNumber, ht, h1, h2, h3, e1, e2, e3, e4, ne_eq, not_false_eq_true, if_true,
    and_self, happyRecord, Env.healthy]

theorem postSearch_happy_db (db : Collection) :
    (postSearch Env.healthy (fun _ => .resolved happyPayload) (.str "  feeling happy ") db).db =
      db ++ [happyRecord] := by
  rw [postSearch_valid _ _ _ _ (by decide)]
  have hsong : happyPayload.getProp "song" = some (.str "Happy") := rfl
  have hartist : happyPayload.getProp "artist" = some (.str "Pharrell Williams") := rfl
  have hconf : happyPayload.getProp "confidence" = some (.num (.fin (23 / 25))) := rfl
  simp only [hsong, hartist, hconf, save_happy]

/-- The ML failure branches: no response gives 503; an error response whose
body is not `null`/`undefined` forwards the status with the body's `detail`, or
"ML service error" when `detail` is falsy. -/
theorem postSearch_ml_failure (env : Env) (ml : String → MlReply) (s : String) (db : Collection)
    (hs : (jsTrim s).length ≠ 0) :
    (ml (jsTrim s) = .noResponse →
      (postSearch env ml (.str s) db).response =
        ⟨503, .error (.str "ML service is unavailable. Please ensure it is running.")⟩) ∧
    (∀ status data detail, ml (jsTrim s) = .errorResponse status data →
      data.getProp "detail" = some detail →
      (postSearch env ml (.str s) db).response =
        ⟨status, .error (if detail.truthy then detail else .str "ML service error")⟩) := by
  rw [postSearch_valid env ml s db hs]
  constructor
  · intro h
    rw [h]
    rfl
  · intro status data detail h hd
    rw [h]
    simp only [hd]

end SearchAux

/-! ## POST /api/search: theorems -/

/-- C1: for lyrics that are non-empty after trimming, when the ML service
resolves with `song`, `artist` and a numeric `confidence` in [0,1] and `save()`
succeeds, exactly one document is appended to the collection; its `lyrics` is
the trimmed input and its `confidence` the service's; the response is 200 with
the service's `song`, `artist`, `confidence` and the `_id` of that document. -/
theorem search_success (env : Env) (ml : String → MlReply) (s : String) (db db1 : Collection)
    (data song artist : JsVal) (q : ℚ)
    (hs : (jsTrim s).length ≠ 0)
    (hml : ml (jsTrim s) = .resolved data)
    (hsong : data.getProp "song" = some song)
    (hartist : data.getProp "artist" = some artist)
    (hconf : data.getProp "confidence" = some (.num (.fin q)))
    (_h0 : 0 ≤ q) (_h1 : q ≤ 1)
    (hsave : save env (SearchHistory.new env (.str (jsTrim s)) song artist (.num (.fin q))) db =
      .ok db1) :
    ∃ doc : SearchHistory,
      (postSearch env ml (.str s) db).db = db ++ [doc] ∧
      doc.lyrics = jsTrim s ∧ doc.confidence = .fin q ∧
      (postSearch env ml (.str s) db).response =
        ⟨200, .searchResult song artist (.num (.fin q)) doc._id⟩ ∧
      ((postSearch env ml (.str s) db).effects.filter Effect.isSave).length = 1 := by
  obtain ⟨doc, hv, -, hdb⟩ := save_ok_iff.mp hsave
  have hnew := validate_new hv
  refine ⟨doc, ?_, ?_, hnew.2.2.2.1 _ rfl, ?_, ?_⟩
  · rw [postSearch_valid env ml s db hs, hml]
    simp only [hsong, hartist, hconf, hsave, hdb]
  · rw [hnew.2.2.1, jsTrim_idem]
  · rw [postSearch_valid env ml s db hs, hml]
    simp only [hsong, hartist, hconf, hsave, hnew.2.1]
    rfl
  · rw [postSearch_valid env ml s db hs, hml]
    simp only [hsong, hartist, hconf, hsave]
    rfl

/-- Scenario A: the lyrics "  feeling happy " are matched to "Happy" and stored. -/
theorem search_success_witness :
    save Env.healthy (SearchHistory.new Env.healthy (.str (jsTrim "  feeling happy "))
      (.str "Happy") (.str "Pharrell Williams") (.num (.fin (23 / 25)))) scenarioStore =
      .ok (scenarioStore ++ [happyRecord]) ∧
    ∃ doc : SearchHistory,
      (postSearch Env.healthy (fun _ => .resolved happyPayload) (.str "  feeling happy ")
        scenarioStore).db = scenarioStore ++ [doc] ∧
      doc.lyrics = "feeling happy" ∧ doc.confidence = .fin (23 / 25) ∧
      (postSearch Env.healthy (fun _ => .resolved happyPayload) (.str "  feeling happy ")
        scenarioStore).response =
        ⟨200, .searchResult (.str "Happy") (.str "Pharrell Williams") (.num (.fin (23 / 25)))
          doc._id⟩ := by
  have ht : jsTrim "  feeling happy " = "feeling happy" := by decide
  have hsave := save_happy scenarioStore
  obtain ⟨doc, hdb, hly, hc, hresp, -⟩ :=
    search_success Env.healthy (fun _ => .resolved happyPayload) "  feeling happy " scenarioStore
      (scenarioStore ++ [happyRecord]) happyPayload (.str "Happy") (.str "Pharrell Williams")
      (23 / 25) (by decide) rfl rfl rfl rfl (by norm_num) (by norm_num) hsave
  exact ⟨hsave, doc, hdb, hly.trans ht, hc, hresp⟩

/-- C2: when `lyrics` is missing, is not a string, or is a string that is
empty or white space only after trimming, the response is 400 with the fixed
error message, the ML service is not called, and nothing else happens. -/
theorem search_rejects_invalid_lyrics (env : Env) (ml : String → MlReply) (lyrics : JsVal)
    (db : Collection) (h : ∀ s, lyrics = .str s → (jsTrim s).length = 0) :
    (postSearch env ml lyrics db).response =
      ⟨400, .error (.str "Lyrics input is required and must be a non-empty string")⟩ ∧
    (postSearch env ml lyrics db).effects = [] ∧
    (postSearch env ml lyrics db).effects.any Effect.isMlPredict = false ∧
    (postSearch env ml lyrics db).db = db := by
  rw [postSearch_invalid env ml lyrics db h]
  exact ⟨rfl, rfl, rfl, rfl⟩

/-- Scenario B and its neighbours: the empty string, a blank string, a missing
field and a number are all rejected with 400. -/
theorem search_rejects_invalid_lyrics_witness :
    (jsTrim "").length = 0 ∧ (jsTrim " \t\n ").length = 0 ∧
    (postSearch Env.healthy (fun _ => .resolved happyPayload) (.str "") scenarioStore).response.status
      = 400 ∧
    (postSearch Env.healthy (fun _ => .resolved happyPayload) (.str " \t\n ")
      scenarioStore).effects = [] ∧
    (postSearch Env.healthy (fun _ => .resolved happyPayload) .undefined scenarioStore).db =
      scenarioStore ∧
    (postSearch Env.healthy (fun _ => .resolved happyPayload) (.num (.fin 7))
      scenarioStore).response.status = 400 := by
  have e1 : (jsTrim "").length = 0 := by decide
  have e2 : (jsTrim " \t\n ").length = 0 := by decide
  refine ⟨e1, e2, ?_, ?_, ?_, ?_⟩
  · rw [(search_rejects_invalid_lyrics Env.healthy _ (.str "") scenarioStore
      (fun s hs => by injection hs with hs; rw [← hs]; exact e1)).1]
  · exact (search_rejects_invalid_lyrics Env.healthy _ (.str " \t\n ") scenarioStore
      (fun s hs => by injection hs with hs; rw [← hs]; exact e2)).2.1
  · exact (search_rejects_invalid_lyrics Env.healthy _ .undefined scenarioStore
      (fun s hs => by injection hs)).2.2.2
  · rw [(search_rejects_invalid_lyrics Env.healthy _ (.num (.fin 7)) scenarioStore
      (fun s hs => by injection hs)).1]

/-- C3: on a validation failure, and when the ML service is unavailable,
answers with an error status, or the request to it could not be set up, the
response is not the success body, `save()` is not called, and the collection
after the call is the collection before it. -/
theorem search_failure_no_write (env : Env) (ml : String → MlReply) (lyrics : JsVal)
    (db : Collection)
    (h : (∀ s, lyrics = .str s → (jsTrim s).length = 0) ∨
      ∃ s, lyrics = .str s ∧
        (ml (jsTrim s) = .noResponse ∨ (∃ status data, ml (jsTrim s) = .errorResponse status data) ∨
          ml (jsTrim s) = .setupError)) :
    (∀ song artist confidence id,
      (postSearch env ml lyrics db).response.body ≠ .searchResult song artist confidence id) ∧
    (postSearch env ml lyrics db).effects.any Effect.isSave = false ∧
    (postSearch env ml lyrics db).db = db := by
  by_cases hv : ∀ s, lyrics = .str s → (jsTrim s).length = 0
  · rw [postSearch_invalid env ml lyrics db hv]
    exact ⟨fun _ _ _ _ hb => by injection hb, rfl, rfl⟩
  · rcases h with h | ⟨s, rfl, h⟩
    · exact absurd h hv
    · have hs : (jsTrim s).length ≠ 0 := by
        intro h0
        apply hv
        intro s1 hs1
        injection hs1 with hs1
        rw [← hs1]; exact h0
      rw [postSearch_valid env ml s db hs]
      rcases h with h | ⟨status, data, h⟩ | h
      · rw [h]; exact ⟨fun _ _ _ _ hb => by injection hb, rfl, rfl⟩
      · rw [h]
        dsimp only
        split <;> exact ⟨fun _ _ _ _ hb => by injection hb, rfl, rfl⟩
      · rw [h]; exact ⟨fun _ _ _ _ hb => by injection hb, rfl, rfl⟩

/-- Scenario C: the ML service does not answer; nothing is written. -/
theorem search_failure_no_write_witness :
    (postSearch Env.healthy (fun _ => .noResponse) (.str "feeling happy") scenarioStore).db =
      scenarioStore ∧
    (postSearch Env.healthy (fun _ => .noResponse) (.str "feeling happy")
      scenarioStore).effects.any Effect.isSave = false ∧
    (postSearch Env.healthy (fun _ => .noResponse) (.str "feeling happy")
      scenarioStore).response.status = 503 := by
  have h := search_failure_no_write Env.healthy (fun _ => .noResponse) (.str "feeling happy")
    scenarioStore (Or.inr ⟨"feeling happy", rfl, Or.inl rfl⟩)
  exact ⟨h.2.2, h.2.1, by decide⟩

/-- C7 (failing input): the ML service answers 502 with the JSON body `null`.
Reading `error.response.data.detail` throws, the outer `catch` answers 500
"Internal server error"; the engine's status is not forwarded and the error is
not "ML service error". -/
theorem search_ml_error_null_body :
    (postSearch Env.healthy (fun _ => .errorResponse 502 .null) (.str "feeling happy")
      scenarioStore).response.status = 500 ∧
    (postSearch Env.healthy (fun _ => .errorResponse 502 .null) (.str "feeling happy")
      scenarioStore).response.body = .internalError .typeError := by
  rw [postSearch_valid _ _ _ _ (by decide)]
  exact ⟨rfl, rfl⟩

/-- C8: every document in a collection reached from the empty one by
`POST /api/search` calls is complete and valid: `lyrics`, `song` and `artist`
are non-empty trimmed strings and `confidence` is a finite number in [0,1]; and
a resolved ML payload without `song` or `artist`, or with a numeric
`confidence` outside [0,1], leaves the collection unchanged. -/
theorem stored_records_valid :
    (∀ (calls : List SearchCall) (r : SearchHistory), r ∈ runSearches calls [] →
      (r.lyrics.length ≠ 0 ∧ jsTrim r.lyrics = r.lyrics) ∧
      (r.song.length ≠ 0 ∧ jsTrim r.song = r.song) ∧
      (r.artist.length ≠ 0 ∧ jsTrim r.artist = r.artist) ∧
      ∃ q : ℚ, r.confidence = .fin q ∧ 0 ≤ q ∧ q ≤ 1) ∧
    (∀ (env : Env) (ml : String → MlReply) (s : String) (db : Collection) (data : JsVal),
      ml (jsTrim s) = .resolved data →
      ((data.getProp "song" = none ∨ data.getProp "song" = some .undefined ∨
          data.getProp "song" = some .null) ∨
        (data.getProp "artist" = none ∨ data.getProp "artist" = some .undefined ∨
          data.getProp "artist" = some .null) ∨
        ∃ n, data.getProp "confidence" = some (.num n) ∧
          ¬ ∃ q : ℚ, n = .fin q ∧ 0 ≤ q ∧ q ≤ 1) →
      (postSearch env ml (.str s) db).db = db ∧
      (postSearch env ml (.str s) db).response.status ≠ 200) := by
  refine ⟨fun calls r hr => runSearches_preserves_valid calls [] (by simp) r hr, ?_⟩
  intro env ml s db data hml hbad
  rcases postSearch_db env ml (.str s) db with h1 | ⟨s1, data1, song, artist, confidence, doc,
    hs1, -, hml1, hsong, hartist, hconf, hv, -, -, -⟩
  · refine ⟨h1.1, ?_⟩
    obtain ⟨-, hbody⟩ := h1
    by_cases hs : (jsTrim s).length = 0
    · rw [postSearch_invalid env ml (.str s) db
        (fun s1 hs1 => by injection hs1 with hs1; rw [← hs1]; exact hs)]
      show (400 : Nat) ≠ 200
      decide
    · rw [postSearch_valid env ml s db hs, hml] at hbody ⊢
      dsimp only at hbody ⊢
      split
      · split
        · show (500 : Nat) ≠ 200
          decide
        · rename_i song artist confidence _ _ _ _ db1 hsave
          exfalso
          simp only [*] at hbody
          exact hbody song artist confidence _ rfl
      · show (500 : Nat) ≠ 200
        decide
  · exfalso
    injection hs1 with hs1
    subst hs1
    rw [hml] at hml1
    injection hml1 with hml1
    subst hml1
    have hnew := validate_new hv
    rcases hbad with hb | hb | ⟨n, hn, hout⟩
    · rw [hsong] at hb
      rcases hb with hb | hb | hb
      · exact absurd hb (by simp)
      · injection hb with hb; exact hnew.2.2.2.2.1 hb
      · injection hb with hb; exact hnew.2.2.2.2.2.1 hb
    · rw [hartist] at hb
      rcases hb with hb | hb | hb
      · exact absurd hb (by simp)
      · injection hb with hb; exact hnew.2.2.2.2.2.2.1 hb
      · injection hb with hb; exact hnew.2.2.2.2.2.2.2.1 hb
    · rw [hconf] at hn
      injection hn with hn
      have hc := hnew.2.2.2.1 n hn
      obtain ⟨q, hq, h0, h1⟩ := hnew.1.2.2.2
      exact hout ⟨q, hc ▸ hq, h0, h1⟩

/-- Scenario A run from the empty collection stores a valid record, and a
payload without `song` stores nothing. -/
theorem stored_records_valid_witness :
    happyRecord ∈ runSearches
      [⟨Env.healthy, fun _ => .resolved happyPayload, .str "  feeling happy "⟩] [] ∧
    ((happyRecord.song.length ≠ 0 ∧ jsTrim happyRecord.song = happyRecord.song) ∧
      ∃ q : ℚ, happyRecord.confidence = .fin q ∧ 0 ≤ q ∧ q ≤ 1) ∧
    (postSearch Env.healthy (fun _ => .resolved (.object [("artist", .str "Pharrell Williams")]))
      (.str "feeling happy") scenarioStore).db = scenarioStore := by
  have hmem : happyRecord ∈ runSearches
      [⟨Env.healthy, fun _ => .resolved happyPayload, .str "  feeling happy "⟩] [] := by
    simp only [runSearches, List.foldl, postSearch_happy_db]
    simp
  have h := stored_records_valid.1 _ happyRecord hmem
  have h2 := stored_records_valid.2 Env.healthy
    (fun _ => .resolved (.object [("artist", .str "Pharrell Williams")])) "feeling happy"
    scenarioStore (.object [("artist", .str "Pharrell Williams")]) rfl (Or.inl (Or.inr (Or.inl rfl)))
  exact ⟨hmem, ⟨h.2.1, h.2.2.2⟩, h2.1⟩

end LyricSearch
